import Mathlib

/-!
Verification of the `NBS3Interface` object-store backend
(`skyplane/obj_store/nbs3_interface.py`) against its natural-language
specification.  The Python methods are shallowly embedded as executable
Lean functions: byte strings become `List Nat`, the object store becomes a
key-indexed map, fallible calls return `Except`, and stateful methods pass
their state explicitly.  Note that the Python class body binds
`get_obj_size`, `exists` and `upload_object` twice; Python keeps the later
binding, so the embeddings below model the later definitions as the
effective methods (the earlier, shadowed ones are embedded separately
where a claim is about them).
-/

namespace NBS3

/-- Equality of `Except` results is decidable when both components are. -/
instance instDecEqExcept {ε α : Type} [DecidableEq ε] [DecidableEq α] :
    DecidableEq (Except ε α) := fun a b =>
  match a, b with
  | .ok x, .ok y =>
    if h : x = y then .isTrue (by rw [h]) else .isFalse (by simp [h])
  | .error x, .error y =>
    if h : x = y then .isTrue (by rw [h]) else .isFalse (by simp [h])
  | .ok _, .error _ => .isFalse (by simp)
  | .error _, .ok _ => .isFalse (by simp)

/-- A stored object: its byte content and its reported content type. -/
structure StoredObj where
  data : List Nat
  contentType : String
deriving DecidableEq

/-- The bucket contents visible to `get_object`/`put`-style calls:
a map from key to stored object (`none` = no such key). -/
def Store : Type := String → Option StoredObj

/-- Python truthiness of an optional integer argument (`None` and `0` are
falsy), as used by `assert not (offset_bytes and not size_bytes)`. -/
def pyTruthy : Option Nat → Bool
  | none => false
  | some n => n != 0

/-- The `response["Body"].read(write_block_size)` loop of `download_object`:
the body is consumed in blocks of `bs` bytes until a read returns empty.
A block size of `0` makes the very first read return the empty byte string,
so the loop body never runs. -/
def readChunksGo (bs : Nat) : Nat → List Nat → List (List Nat)
  | 0, _ => []
  | fuel + 1, l =>
    if bs = 0 then []
    else if l = [] then []
    else l.take bs :: readChunksGo bs fuel (l.drop bs)

/-- The read loop entered with fuel `l.length`: when `bs > 0` every
iteration consumes at least one byte, so the fuel never runs out before
the body is exhausted, and `readChunksGo` is exactly the Python loop. -/
def readChunks (bs : Nat) (l : List Nat) : List (List Nat) :=
  readChunksGo bs l.length l

/-- Writing `bytes` into `file` at byte position `pos` (POSIX file-write
semantics: a seek past the end zero-fills the gap). -/
def writeAt (file : List Nat) (pos : Nat) (bytes : List Nat) : List Nat :=
  file.take pos ++ List.replicate (pos - file.length) 0 ++ bytes ++ file.drop (pos + bytes.length)

/-- The write loop of `download_object`: each block read is written at the
current file position, which then advances by the block length. -/
def writeLoop (chunks : List (List Nat)) (file : List Nat) (pos : Nat) : List Nat :=
  match chunks with
  | [] => file
  | c :: cs => writeLoop cs (writeAt file pos c) (pos + c.length)

/-- Errors `download_object` can raise. -/
inductive DlErr
  | assertionError (msg : String)
  | typeError (msg : String)
  | clientError (msg : String)
deriving DecidableEq

/-- Observable outcome of a successful `download_object` call: the value of
the returned `(mime_type, md5)` pair together with the final byte content of
the destination file. -/
structure DlResult where
  mimeType : String
  md5 : Option (List Nat)
  file : List Nat
deriving DecidableEq

/-- Method `download_object` (nbs3_interface.py lines 182-220).  `md5` abstracts
`hashlib.md5` finalization over the full byte stream fed to `update`; the
code feeds it exactly the blocks read, in order.  Faithful details:
the offset/size assertion uses Python truthiness; the range header is set
only when both offset and size are given; the destination is pre-created if
absent and then opened with mode `"wb+"` when `write_at_offset` else
`"wb"` - both modes truncate, so the prior contents `dst_file` never
survive; `f.seek(None)` (write_at_offset with no offset) is a TypeError. -/
def download_object (store : Store) (md5 : List Nat → List Nat)
    (src_object_name : String) (dst_file : Option (List Nat))
    (offset_bytes size_bytes : Option Nat)
    (write_at_offset generate_md5 : Bool) (write_block_size : Nat) :
    Except DlErr DlResult :=
  if src_object_name = "" then
    .error (.assertionError "Source object name must be non-empty")
  else if pyTruthy offset_bytes && !pyTruthy size_bytes then
    .error (.assertionError "Cannot specify offset without size")
  else
    match store src_object_name with
    | none => .error (.clientError "NoSuchKey")
    | some obj =>
      let body : List Nat :=
        match offset_bytes, size_bytes with
        | some o, some s => (obj.data.drop o).take s
        | _, _ => obj.data
      match (if write_at_offset then offset_bytes else some 0) with
      | none => .error (.typeError "seek of None")
      | some pos =>
        let chunks := readChunks write_block_size body
        .ok { mimeType := obj.contentType
              md5 := if generate_md5 then some (md5 chunks.flatten) else none
              file := writeLoop chunks [] pos }

/-- The effective `upload_object` (lines 328-333, the later binding): its
whole-store effect is `boto3`-style `upload_file`, storing the local file
bytes under the destination key with the transport-chosen content type. -/
def upload_object_store (store : Store) (remote_path : String)
    (localBytes : List Nat) (mime : String) : Store :=
  fun k => if k = remote_path then some ⟨localBytes, mime⟩ else store k

/-- The wire calls issued by `delete_objects` (lines 151-155): the loop
`batch, keys = keys[:1000], keys[1000:]` takes up to 1000 keys per
iteration and issues one `delete_objects` backend call per batch. -/
def deleteObjectsGo : Nat → List String → List (List String)
  | 0, _ => []
  | fuel + 1, keys =>
    if keys = [] then []
    else keys.take 1000 :: deleteObjectsGo fuel (keys.drop 1000)

/-- The loop entered with fuel `keys.length`: every iteration consumes at
least one key, so the fuel never runs out before the list is exhausted and
`deleteObjectsGo` is exactly the Python loop. -/
def delete_objects_calls (keys : List String) : List (List String) :=
  deleteObjectsGo keys.length keys

/-- One multipart part as stored by the backend and echoed by `list_parts`:
its part number and its completion tag (ETag). -/
structure S3Part where
  partNumber : Nat
  etag : String
deriving DecidableEq

/-- One `list_parts` page: the backend stores parts in ascending
part-number order and returns the parts whose number is strictly greater
than `PartNumberMarker`, at most `MaxParts` of them. -/
def listPartsPage (parts : List S3Part) (marker maxParts : Nat) : List S3Part :=
  (parts.filter (fun p => marker < p.partNumber)).take maxParts

/-- The `while True` accumulation loop of `complete_multipart_upload`
(lines 284-294): each iteration lists a page with
`PartNumberMarker = len(all_parts)` and `MaxParts = 100`, stopping on an
empty page.  `fuel` bounds the unbounded Python loop; `none` means the
loop has not yet reached an empty page within `fuel` iterations. -/
def gatherParts (parts : List S3Part) : Nat → List S3Part → Option (List S3Part)
  | 0, _ => none
  | fuel + 1, acc =>
    let page := listPartsPage parts acc.length 100
    if page.isEmpty then some acc
    else gatherParts parts fuel (acc ++ page)

/-- Largest part number held by the backend (0 for no parts); used only to
size the fuel of `gatherParts`, since each non-final iteration grows the
accumulator and the loop must stop once the marker reaches this number. -/
def maxPartNumber (parts : List S3Part) : Nat :=
  (parts.map (fun p => p.partNumber)).foldr max 0

/-- Failure modes of `complete_multipart_upload`. -/
inductive CompleteErr
  | stuck
  | assertionFailed (msg : String)
deriving DecidableEq

/-- Method `complete_multipart_upload` (lines 282-302): accumulate pages, sort the
accumulated parts by ascending part number (Python `sorted` is a stable
comparison sort; insertion sort is its extensional model), submit the
finalize request with that list, and assert that the finalize response
carries an ETag.  `finalize` is the backend response to the submitted part
list; on success the function returns the part list it submitted. -/
def complete_multipart_upload (finalize : List S3Part → Option String)
    (parts : List S3Part) : Except CompleteErr (List S3Part) :=
  match gatherParts parts (maxPartNumber parts + 2) [] with
  | none => .error .stuck
  | some all_parts =>
    let sorted_parts :=
      all_parts.insertionSort (fun a b => a.partNumber ≤ b.partNumber)
    match finalize sorted_parts with
    | some _ => .ok sorted_parts
    | none => .error (.assertionFailed "Failed to complete multipart upload")

/-- Backend parts holding consecutive part numbers `s+1, s+2, ..., s+n`
(the numbering produced when a caller uploads parts 1..n). -/
def consecParts (etags : Nat → String) : Nat → Nat → List S3Part
  | _, 0 => []
  | s, n + 1 => ⟨s + 1, etags s⟩ :: consecParts etags (s + 1) n

/-- The part numbers of `l` are consecutive starting at `s + 1`. -/
def consecFrom : Nat → List S3Part → Prop
  | _, [] => True
  | s, p :: ps => p.partNumber = s + 1 ∧ consecFrom (s + 1) ps

/-- Result discriminator for `Except` used to state never-raises claims. -/
def exceptIsOk : Except ε α → Bool
  | .ok _ => true
  | .error _ => false

/-- Metadata returned by a `head_object` backend call. -/
structure MetaD where
  contentLength : Nat
  lastModified : Nat
  contentType : String
deriving DecidableEq

/-- The effective `exists` (lines 320-326, the later binding): a bare
`except:` converts every failure of the `head_object` call - not-found and
transport errors alike - into the return value `False`; nothing escapes. -/
def exists_key (head_object : Except String MetaD) : Except String Bool :=
  match head_object with
  | .ok _ => .ok true
  | .error _ => .ok false

/-- Method `bucket_exists` (lines 335-346): builds the client and lists buckets
inside a `try`; any failure of either step is caught and normalized to
`False`, otherwise the result is membership of the bucket name in the
listing.  `client_and_list` is the combined outcome of those two steps. -/
def bucket_exists (client_and_list : Except String (List String))
    (bucket_name : String) : Except String Bool :=
  match client_and_list with
  | .ok names => .ok (names.contains bucket_name)
  | .error _ => .ok false

/-- A `botocore` `ClientError` with its error code. -/
structure ClientErr where
  code : String
deriving DecidableEq

/-- Outcomes of an `upload_object` call. -/
inductive UploadOutcome
  | success
  | assertionFailed
  | checksumMismatch (msg : String)
  | clientError (code : String)
  | genericError (msg : String)
deriving DecidableEq

/-- The effective `upload_object` (lines 328-333, the later binding): it
accepts only the local path and the remote key - no checksum parameter
exists - and re-raises any transfer failure as a generic `Exception`.
`transfer` is the outcome of the underlying `upload_file` call, which is
issued without any checksum header. -/
def upload_object_effective (transfer : Except ClientErr Unit)
    (local_path remote_path : String) : UploadOutcome :=
  match transfer with
  | .ok _ => .success
  | .error _ =>
    .genericError ("Failed to upload " ++ local_path ++ " to " ++ remote_path)

/-- The earlier, shadowed `upload_object` (lines 222-269): base64-encodes a
truthy `check_md5` into a `ContentMD5` header (`backend` receives the
optional header value), and translates a `ClientError` with code
`InvalidDigest` into `ChecksumMismatchException`, re-raising other client
errors unchanged.  Dead code in the Python class: the later binding above
replaces it. -/
def upload_object_v1 (b64encode : List Nat → String)
    (check_md5 : Option (List Nat))
    (backend : Option String → Except ClientErr Unit)
    (dst_object_name : String) : UploadOutcome :=
  if dst_object_name = "" then .assertionFailed
  else
    let b64_md5sum : Option String :=
      match check_md5 with
      | some bs => if bs.isEmpty then none else some (b64encode bs)
      | none => none
    match backend b64_md5sum with
    | .ok _ => .success
    | .error e =>
      if e.code = "InvalidDigest" then
        .checksumMismatch ("Checksum mismatch for object " ++ dst_object_name)
      else .clientError e.code

/-- The `upload_object` method callers actually reach: the Python class
body binds the name twice and method resolution keeps the later binding. -/
def upload_object := upload_object_effective

/-- Bucket-level state for `delete_bucket`: the keys currently listed in
the bucket and whether the bucket itself still exists. -/
structure BucketState where
  objects : List String
  present : Bool
deriving DecidableEq

/-- Effect of one batched backend delete call on the listed keys. -/
def removeKeys (objs : List String) (keys : List String) : List String :=
  objs.filter (fun o => !(keys.contains o))

/-- Effect of a sequence of batched delete calls. -/
def applyDeletes (objs : List String) (batches : List (List String)) : List String :=
  batches.foldl removeKeys objs

/-- Modelled from the spec: `batch_generator` (skyplane.utils.generator) is
not under src/; spec section 4.4 describes it as partitioning an
arbitrarily long sequence into chunks of at most 1000. -/
def batch_generator_1000 (l : List String) : List (List String) :=
  delete_objects_calls l

/-- Trace of a completed `delete_bucket` run: the final bucket state, the
batched object-delete wire calls issued while draining, and the keys still
listed at the moment the backend bucket-deletion call is issued. -/
structure DeleteBucketTrace where
  final : BucketState
  drainCalls : List (List String)
  objectsAtBucketDelete : List String
deriving DecidableEq

/-- Method `delete_bucket` (lines 119-125): drain the bucket by deleting every
listed key in batches of at most 1000 (one `delete_objects` call per
batch, each batch small enough for a single wire call), assert the listing
is now empty, then issue the backend bucket-deletion call. -/
def delete_bucket (st : BucketState) : Except String DeleteBucketTrace :=
  let batches := batch_generator_1000 st.objects
  let drained := applyDeletes st.objects batches
  if drained = [] then
    .ok { final := ⟨drained, false⟩
          drainCalls := batches
          objectsAtBucketDelete := drained }
  else .error "Bucket not empty after deleting all keys"

/-- State of the `lru_cache` wrapping `get_obj_metadata` plus a counter of
backend `head_object` fetches (to observe whether a call hit the cache). -/
structure MetaState where
  cache : List (String × MetaD)
  fetches : Nat
deriving DecidableEq

/-- Method `get_obj_metadata` (lines 157-164) under `@lru_cache`: a cached entry
is returned without contacting the backend; otherwise `head_object` is
issued, a success is cached, and a failure raises `NoSuchObjectException`
(and is not cached, since `lru_cache` does not cache raised exceptions). -/
def get_obj_metadata (backend : String → Option MetaD) (st : MetaState)
    (name : String) : Except String MetaD × MetaState :=
  match st.cache.lookup name with
  | some m => (.ok m, st)
  | none =>
    match backend name with
    | some m => (.ok m, ⟨(name, m) :: st.cache, st.fetches + 1⟩)
    | none => (.error "Object does not exist", ⟨st.cache, st.fetches + 1⟩)

/-- Method `get_obj_last_modified` (lines 169-170): reads the cached metadata. -/
def get_obj_last_modified (backend : String → Option MetaD) (st : MetaState)
    (name : String) : Except String Nat × MetaState :=
  match get_obj_metadata backend st name with
  | (r, st1) => (r.map (fun m => m.lastModified), st1)

/-- Method `get_obj_mime_type` (lines 172-173): reads the cached metadata. -/
def get_obj_mime_type (backend : String → Option MetaD) (st : MetaState)
    (name : String) : Except String String × MetaState :=
  match get_obj_metadata backend st name with
  | (r, st1) => (r.map (fun m => m.contentType), st1)

/-- The effective `get_obj_size` (lines 312-318, the later binding): it
bypasses `get_obj_metadata` and its cache, issuing a fresh `head_object`
backend call every time and wrapping any failure in
`NoSuchObjectException`. -/
def get_obj_size (backend : String → Option MetaD) (st : MetaState)
    (name : String) : Except String Nat × MetaState :=
  match backend name with
  | some m => (.ok m.contentLength, ⟨st.cache, st.fetches + 1⟩)
  | none => (.error "Failed to get object size", ⟨st.cache, st.fetches + 1⟩)

/-- The region table `NEBIUS_REGIONS` (lines 26-29): only `eu-north1`. -/
def NEBIUS_REGIONS : List String := ["eu-north1"]

/-- Splitting a character list at every occurrence of `c`
(Python `str.split(":")` on the character level). -/
def splitOnChar (c : Char) : List Char → List (List Char)
  | [] => [[]]
  | x :: xs =>
    if x = c then [] :: splitOnChar c xs
    else
      match splitOnChar c xs with
      | [] => [[x]]
      | g :: gs => (x :: g) :: gs

/-- Python expression `region_tag.split(":")[-1] if ":" in region_tag else region_tag`
(line 88). -/
def parseRegion (tag : String) : String :=
  if tag.data.contains ':' then String.mk ((splitOnChar ':' tag.data).getLastD [])
  else tag

/-- Backend-instance state relevant to `create_bucket` and `region_tag`:
the bucket this interface addresses, the `_region` attribute, the bucket
names the backend currently holds, and a counter of `create_bucket` wire
calls. -/
structure NBState where
  bucketName : String
  rgn : Option String
  buckets : List String
  createCalls : Nat
deriving DecidableEq

/-- Property `aws_region` (lines 56-61): returns `_region`, first defaulting it to
`eu-north1` when unset. -/
def aws_region (st : NBState) : String × NBState :=
  match st.rgn with
  | some r => (r, st)
  | none => ("eu-north1", { st with rgn := some "eu-north1" })

/-- Method `region_tag` (lines 63-64): `"nebius:" + self.aws_region`. -/
def region_tag (st : NBState) : String × NBState :=
  match aws_region st with
  | (r, st1) => ("nebius:" ++ r, st1)

/-- Method `bucket_exists` as reached from `create_bucket`, on the transport
happy path: list the buckets and test membership of the bucket name. -/
def bucket_exists_listed (st : NBState) : Bool :=
  st.buckets.contains st.bucketName

/-- Method `create_bucket` (lines 86-117), transport happy path: parse the region
out of the tag, reject regions missing from `NEBIUS_REGIONS`, set
`_region`, and issue the backend creation call only when `bucket_exists()`
is false (the existing-bucket branch only logs; the post-creation listing
is read-only). -/
def create_bucket (st : NBState) (tag : String) : Except String NBState :=
  let region := parseRegion tag
  if NEBIUS_REGIONS.contains region then
    let st1 := { st with rgn := some region }
    if bucket_exists_listed st1 then .ok st1
    else
      .ok { st1 with
            buckets := st1.buckets ++ [st1.bucketName]
            createCalls := st1.createCalls + 1 }
  else .error ("Invalid Nebius region: " ++ region)

/-- A concrete store holding one two-byte object, used as explicit input
for the counterexample evaluations. -/
def twoByteStore : Store :=
  fun k => if k = "obj" then some ⟨[1, 2], "m"⟩ else none

/-- A concrete `head_object` backend holding one object named `o`. -/
def demoBackend : String → Option MetaD :=
  fun k => if k = "o" then some ⟨3, 7, "m"⟩ else none

theorem readChunksGo_flatten {bs : Nat} (hbs : 0 < bs) :
    ∀ fuel l, l.length ≤ fuel → (readChunksGo bs fuel l).flatten = l := by
  intro fuel
  induction fuel with
  | zero =>
    intro l hl
    have : l = [] := List.length_eq_zero.mp (Nat.le_zero.mp hl)
    simp [this, readChunksGo]
  | succ fuel ih =>
    intro l hl
    by_cases hnil : l = []
    · simp [hnil, readChunksGo]
    · have hbs0 : bs ≠ 0 := Nat.pos_iff_ne_zero.mp hbs
      rw [readChunksGo]
      simp only [hbs0, if_false, hnil, List.flatten_cons]
      rw [ih (l.drop bs)]
      · exact List.take_append_drop bs l
      · have hlen : 0 < l.length := List.length_pos.mpr hnil
        simp only [List.length_drop]
        omega

theorem readChunks_flatten {bs : Nat} (hbs : 0 < bs) (l : List Nat) :
    (readChunks bs l).flatten = l :=
  readChunksGo_flatten hbs l.length l (Nat.le_refl _)

theorem writeAt_eq_append {file : List Nat} {pos : Nat} (h : file.length = pos)
    (bytes : List Nat) : writeAt file pos bytes = file ++ bytes := by
  unfold writeAt
  rw [← h]
  simp [List.take_length, List.drop_eq_nil_iff]

theorem writeLoop_flatten :
    ∀ (chunks : List (List Nat)) (file : List Nat) (pos : Nat),
      file.length = pos → writeLoop chunks file pos = file ++ chunks.flatten := by
  intro chunks
  induction chunks with
  | nil => intro file pos _; simp [writeLoop]
  | cons c cs ih =>
    intro file pos h
    rw [writeLoop, writeAt_eq_append h, ih (file ++ c) (pos + c.length) (by simp [h])]
    simp

/-- C3: uploading bytes `B` to key `K` and then downloading `K` yields
exactly `B` in the destination file; with `generate_md5` set the returned
digest is the MD5 of `B` (the hash is fed exactly the downloaded blocks,
whose concatenation is `B`), and without it the returned digest is `None`. -/
theorem upload_download_roundtrip (store : Store) (key : String) (B : List Nat)
    (mime : String) (md5 : List Nat → List Nat) (g : Bool)
    (dst : Option (List Nat)) (bs : Nat) (hkey : key ≠ "") (hbs : 0 < bs) :
    download_object (upload_object_store store key B mime) md5 key dst
      none none false g bs
      = .ok ⟨mime, if g then some (md5 B) else none, B⟩ := by
  unfold download_object upload_object_store
  simp [hkey, pyTruthy, readChunks_flatten hbs, writeLoop_flatten]

theorem upload_download_roundtrip_witness :
    download_object (upload_object_store (fun _ => none) "k" [1, 2, 3] "m")
      (fun l => l) "k" none none none false true 65536
      = .ok ⟨"m", some [1, 2, 3], [1, 2, 3]⟩ :=
  upload_download_roundtrip (fun _ => none) "k" [1, 2, 3] "m" (fun l => l)
    true none 65536 (by decide) (by decide)

/-- C1: range-download assembly evaluated on the object `[1, 2]` split at
`n = 1`.  The first call (range `[0,1)`, `write_at_offset`) leaves the file
`[1]`; the second call (range `[1,2)`, `write_at_offset`, destination file
currently `[1]`) re-truncates the file because mode `"wb+"` truncates, and
seek-past-end zero-fills, leaving `[0, 2]`; a whole-object download leaves
`[1, 2]`.  The assembled file differs from the whole-object download,
contradicting the claimed (and clearly intended) assembly property. -/
theorem download_range_assembly_bug :
    download_object twoByteStore (fun _ => []) "obj" none
      (some 0) (some 1) true false 65536 = .ok ⟨"m", none, [1]⟩ ∧
    download_object twoByteStore (fun _ => []) "obj" (some [1])
      (some 1) (some 1) true false 65536 = .ok ⟨"m", none, [0, 2]⟩ ∧
    download_object twoByteStore (fun _ => []) "obj" none
      none none false false 65536 = .ok ⟨"m", none, [1, 2]⟩ ∧
    ([0, 2] : List Nat) ≠ [1, 2] := by
  refine ⟨by decide, by decide, by decide, by decide⟩

/-- C9 counterexample: `offset_bytes = 0` with no `size_bytes` is supplying
an offset without a size, yet the call does not fail - Python truthiness
makes `0` falsy in the assertion - and the fetch is issued with no range
header, succeeding on the full object. -/
theorem download_offset_zero_without_size_accepted :
    download_object twoByteStore (fun _ => []) "obj" none
      (some 0) none false false 65536 = .ok ⟨"m", none, [1, 2]⟩ := by
  decide

/-- C9 as amended: supplying a nonzero `offset_bytes` without `size_bytes`
fails with the usage assertion before any fetch is issued - the outcome is
the same for every store, so the backend is never consulted. -/
theorem download_nonzero_offset_without_size_fails (store : Store)
    (md5 : List Nat → List Nat) (key : String) (dst : Option (List Nat))
    (o : Nat) (w g : Bool) (bs : Nat) (hk : key ≠ "") (ho : o ≠ 0) :
    download_object store md5 key dst (some o) none w g bs
      = .error (.assertionError "Cannot specify offset without size") := by
  unfold download_object
  simp [hk, pyTruthy, ho]

theorem download_nonzero_offset_without_size_fails_witness :
    download_object (fun _ => none) (fun _ => []) "k" none (some 5) none
      false false 65536
      = .error (.assertionError "Cannot specify offset without size") :=
  download_nonzero_offset_without_size_fails (fun _ => none) (fun _ => [])
    "k" none 5 false false 65536 (by decide) (by decide)

theorem deleteObjectsGo_nil : ∀ fuel, deleteObjectsGo fuel [] = [] := by
  intro fuel
  cases fuel <;> simp [deleteObjectsGo]

theorem deleteObjectsGo_flatten :
    ∀ fuel (keys : List String), keys.length ≤ fuel →
      (deleteObjectsGo fuel keys).flatten = keys := by
  intro fuel
  induction fuel with
  | zero =>
    intro keys hk
    have : keys = [] := List.length_eq_zero.mp (Nat.le_zero.mp hk)
    simp [this, deleteObjectsGo]
  | succ fuel ih =>
    intro keys hk
    by_cases hnil : keys = []
    · simp [hnil, deleteObjectsGo]
    · rw [deleteObjectsGo]
      simp only [hnil, if_false, List.flatten_cons]
      rw [ih (keys.drop 1000)]
      · exact List.take_append_drop 1000 keys
      · have : 0 < keys.length := List.length_pos.mpr hnil
        simp only [List.length_drop]
        omega

theorem deleteObjectsGo_bounds :
    ∀ fuel (keys : List String), ∀ b ∈ deleteObjectsGo fuel keys,
      b.length ≤ 1000 ∧ b ≠ [] := by
  intro fuel
  induction fuel with
  | zero => intro keys b hb; simp [deleteObjectsGo] at hb
  | succ fuel ih =>
    intro keys b hb
    by_cases hnil : keys = []
    · simp [hnil, deleteObjectsGo] at hb
    · rw [deleteObjectsGo] at hb
      simp only [hnil, if_false, List.mem_cons] at hb
      rcases hb with hb | hb
      · subst hb
        constructor
        · simp [List.length_take]
        · simp [List.take_eq_nil_iff, hnil]
      · exact ih (keys.drop 1000) b hb

/-- C4: `delete_objects` accepts any key list, partitions it into
consecutive chunks of at most 1000 non-empty keys issuing one wire call
per chunk, every key lands in exactly one chunk in order (the chunk
concatenation is the input), and a 2001-key input produces exactly the
three calls of sizes 1000, 1000, 1. -/
theorem delete_objects_batching (keys : List String) :
    (delete_objects_calls keys).flatten = keys ∧
    ((delete_objects_calls keys).all
      (fun b => decide (b.length ≤ 1000) && !b.isEmpty)) = true ∧
    (keys.length = 2001 →
      (delete_objects_calls keys).map List.length = [1000, 1000, 1]) := by
  refine ⟨deleteObjectsGo_flatten keys.length keys (Nat.le_refl _), ?_, ?_⟩
  · rw [List.all_eq_true]
    intro b hb
    have hbb := deleteObjectsGo_bounds keys.length keys b hb
    simp [hbb.1, List.isEmpty_iff, hbb.2]
  · intro h
    unfold delete_objects_calls
    rw [h]
    have h1 : keys ≠ [] := by
      intro e
      rw [e] at h
      simp at h
    have hd1 : (keys.drop 1000).length = 1001 := by
      simp [List.length_drop, h]
    have h2 : keys.drop 1000 ≠ [] := by
      intro e
      rw [e] at hd1
      simp at hd1
    have hd2 : ((keys.drop 1000).drop 1000).length = 1 := by
      simp only [List.length_drop]
      omega
    have h3 : (keys.drop 1000).drop 1000 ≠ [] := by
      intro e
      rw [e] at hd2
      simp at hd2
    have h4 : (((keys.drop 1000).drop 1000).drop 1000) = [] := by
      rw [List.drop_eq_nil_iff, hd2]
      omega
    rw [show (2001 : Nat) = 2000 + 1 from rfl, deleteObjectsGo]
    simp only [h1, if_false]
    rw [show (2000 : Nat) = 1999 + 1 from rfl, deleteObjectsGo]
    simp only [h2, if_false]
    rw [show (1999 : Nat) = 1998 + 1 from rfl, deleteObjectsGo]
    simp only [h3, if_false]
    rw [h4, deleteObjectsGo_nil]
    simp [List.length_take, h, hd1, hd2]

theorem delete_objects_batching_witness :
    (delete_objects_calls (List.replicate 2001 "k")).map List.length
      = [1000, 1000, 1] :=
  (delete_objects_batching (List.replicate 2001 "k")).2.2
    (by rw [List.length_replicate])

/-- C5: `exists` and `bucket_exists` never raise - whatever the backend
call produces, both return an `ok` boolean - and every internal failure,
transport errors included, is normalized to the return value `false`. -/
theorem exists_bucket_exists_never_raise (head : Except String MetaD)
    (cl : Except String (List String)) (nm : String) (e1 e2 : String) :
    exceptIsOk (exists_key head) = true ∧
    exceptIsOk (bucket_exists cl nm) = true ∧
    exists_key (.error e1) = .ok false ∧
    bucket_exists (.error e2) nm = .ok false := by
  refine ⟨?_, ?_, rfl, rfl⟩
  · cases head <;> rfl
  · cases cl <;> rfl

/-- C6: the `upload_object` the class actually exposes is the later
binding, which accepts no checksum at all and turns a backend
`InvalidDigest` rejection into a generic transfer error, while the
earlier (shadowed, unreachable) definition implements the claimed
behaviour: base64-encode the checksum, send it, and translate
`InvalidDigest` into the distinct checksum-mismatch error. -/
theorem upload_checksum_path_shadowed :
    upload_object (.error ⟨"InvalidDigest"⟩) "f" "k"
      = .genericError "Failed to upload f to k" ∧
    upload_object_v1 (fun _ => "AQI=") (some [1, 2])
      (fun _ => .error ⟨"InvalidDigest"⟩) "k"
      = .checksumMismatch "Checksum mismatch for object k" ∧
    upload_object = upload_object_effective :=
  ⟨by decide, by decide, rfl⟩

theorem applyDeletes_filter :
    ∀ (batches : List (List String)) (objs : List String),
      applyDeletes objs batches
        = objs.filter (fun o => !(batches.flatten.contains o)) := by
  intro batches
  induction batches with
  | nil => intro objs; simp [applyDeletes]
  | cons b bs ih =>
    intro objs
    show applyDeletes (removeKeys objs b) bs = _
    rw [ih]
    unfold removeKeys
    rw [List.filter_filter]
    congr 1
    funext o
    simp [Bool.and_comm]

theorem applyDeletes_own_batches_nil (objs : List String) :
    applyDeletes objs (batch_generator_1000 objs) = [] := by
  rw [applyDeletes_filter, List.filter_eq_nil_iff]
  intro o ho
  have hfl : (batch_generator_1000 objs).flatten = objs :=
    deleteObjectsGo_flatten objs.length objs (Nat.le_refl _)
  rw [hfl]
  simp [ho]

/-- C7 counterexample: a bucket holding one object is non-empty, yet
`delete_bucket` does not fail - it drains the bucket itself (one batched
object-delete call) and then deletes the bucket. -/
theorem delete_bucket_nonempty_succeeds :
    delete_bucket ⟨["a"], true⟩ = .ok ⟨⟨[], false⟩, [["a"]], []⟩ := by
  decide

/-- C7 as amended: `delete_bucket` never fails for lack of draining - it
first deletes every listed key in batches of at most 1000, and the
backend-level bucket deletion is issued only once the listing is empty
(the trace records no keys at the moment of that call). -/
theorem delete_bucket_drains_then_deletes (st : BucketState) :
    delete_bucket st
      = .ok ⟨⟨[], false⟩, batch_generator_1000 st.objects, []⟩ := by
  unfold delete_bucket
  simp [applyDeletes_own_batches_nil st.objects]

/-- C8 counterexample: after a first successful metadata fetch for `o`
(which caches its metadata), a call to the effective `get_obj_size` still
issues a fresh backend fetch - the fetch counter moves - because the later
binding of `get_obj_size` bypasses the metadata cache. -/
theorem get_obj_size_refetches :
    (get_obj_metadata demoBackend ⟨[], 0⟩ "o").1 = .ok ⟨3, 7, "m"⟩ ∧
    (get_obj_size demoBackend (get_obj_metadata demoBackend ⟨[], 0⟩ "o").2
        "o").2.fetches
      ≠ (get_obj_metadata demoBackend ⟨[], 0⟩ "o").2.fetches := by
  refine ⟨by decide, by decide⟩

/-- C8 as amended: while a key's metadata is cached,
`get_obj_last_modified` and `get_obj_mime_type` answer from the cache with
no new backend fetch whatever the backend now holds (so external deletion
is not reflected in them), whereas `get_obj_size` - redefined later in the
class - issues a fresh backend fetch on every call. -/
theorem metadata_cache_behavior (b2 : String → Option MetaD) (st : MetaState)
    (name : String) (m : MetaD) (hc : st.cache.lookup name = some m) :
    get_obj_last_modified b2 st name = (.ok m.lastModified, st) ∧
    get_obj_mime_type b2 st name = (.ok m.contentType, st) ∧
    (get_obj_size b2 st name).2.fetches = st.fetches + 1 := by
  refine ⟨?_, ?_, ?_⟩
  · unfold get_obj_last_modified get_obj_metadata
    rw [hc]
    rfl
  · unfold get_obj_mime_type get_obj_metadata
    rw [hc]
    rfl
  · unfold get_obj_size
    cases b2 name <;> rfl

theorem metadata_cache_behavior_witness :
    get_obj_last_modified (fun _ => none) ⟨[("o", ⟨3, 7, "m"⟩)], 1⟩ "o"
      = (.ok 7, ⟨[("o", ⟨3, 7, "m"⟩)], 1⟩) ∧
    get_obj_mime_type (fun _ => none) ⟨[("o", ⟨3, 7, "m"⟩)], 1⟩ "o"
      = (.ok "m", ⟨[("o", ⟨3, 7, "m"⟩)], 1⟩) ∧
    (get_obj_size (fun _ => none) ⟨[("o", ⟨3, 7, "m"⟩)], 1⟩ "o").2.fetches
      = 1 + 1 :=
  metadata_cache_behavior (fun _ => none) ⟨[("o", ⟨3, 7, "m"⟩)], 1⟩ "o"
    ⟨3, 7, "m"⟩ (by decide)

/-- C10: for a tag parsing to a valid Nebius region, `create_bucket`
succeeds, stores that region in `_region` (so `region_tag` then returns
`nebius:` followed by it), and when the bucket is already listed by the
backend it issues no creation call and leaves the bucket set unchanged. -/
theorem create_bucket_sets_region_and_frame (st : NBState) (tag r : String)
    (hparse : parseRegion tag = r) (hr : NEBIUS_REGIONS.contains r = true) :
    ∃ st', create_bucket st tag = .ok st' ∧
      st'.rgn = some r ∧
      (region_tag st').1 = "nebius:" ++ r ∧
      st'.bucketName = st.bucketName ∧
      (st.bucketName ∈ st.buckets →
        st'.buckets = st.buckets ∧ st'.createCalls = st.createCalls) := by
  unfold create_bucket
  rw [hparse]
  simp only [hr, if_true]
  by_cases hex : bucket_exists_listed { st with rgn := some r }
  · refine ⟨{ st with rgn := some r }, by simp [hex], rfl, rfl, rfl, ?_⟩
    intro _
    exact ⟨rfl, rfl⟩
  · refine ⟨⟨st.bucketName, some r, st.buckets ++ [st.bucketName],
        st.createCalls + 1⟩, by simp [hex], rfl, rfl, rfl, ?_⟩
    intro hb
    exfalso
    apply hex
    unfold bucket_exists_listed
    simp [hb]

theorem create_bucket_sets_region_and_frame_witness :
    ∃ st', create_bucket ⟨"b", none, ["b"], 0⟩ "nebius:eu-north1" = .ok st' ∧
      st'.rgn = some "eu-north1" ∧
      (region_tag st').1 = "nebius:" ++ "eu-north1" ∧
      st'.bucketName = "b" ∧
      ("b" ∈ (["b"] : List String) →
        st'.buckets = ["b"] ∧ st'.createCalls = 0) :=
  create_bucket_sets_region_and_frame ⟨"b", none, ["b"], 0⟩
    "nebius:eu-north1" "eu-north1" (by decide) (by decide)

theorem maxPartNumber_cons (p : S3Part) (l : List S3Part) :
    maxPartNumber (p :: l) = max p.partNumber (maxPartNumber l) := rfl

theorem consecFrom_gt :
    ∀ (l : List S3Part) (s : Nat), consecFrom s l →
      ∀ p ∈ l, s < p.partNumber := by
  intro l
  induction l with
  | nil => intro s _ p hp; simp at hp
  | cons q qs ih =>
    intro s hc p hp
    simp only [consecFrom] at hc
    obtain ⟨hq, hrest⟩ := hc
    rcases List.mem_cons.mp hp with h | h
    · subst h; omega
    · have := ih (s + 1) hrest p h
      omega

theorem consecFrom_pairwise_lt :
    ∀ (l : List S3Part) (s : Nat), consecFrom s l →
      List.Pairwise (fun a b => a.partNumber < b.partNumber) l := by
  intro l
  induction l with
  | nil => intro s _; exact List.Pairwise.nil
  | cons q qs ih =>
    intro s hc
    simp only [consecFrom] at hc
    obtain ⟨hq, hrest⟩ := hc
    refine List.Pairwise.cons ?_ (ih (s + 1) hrest)
    intro b hb
    have := consecFrom_gt qs (s + 1) hrest b hb
    omega

theorem consecFrom_sorted_le (l : List S3Part) (s : Nat) (hc : consecFrom s l) :
    List.Sorted (fun a b : S3Part => a.partNumber ≤ b.partNumber) l :=
  (consecFrom_pairwise_lt l s hc).imp (fun h => Nat.le_of_lt h)

theorem consecFrom_filter_eq_drop :
    ∀ (l : List S3Part) (s k : Nat), consecFrom s l → s ≤ k →
      l.filter (fun p => k < p.partNumber) = l.drop (k - s) := by
  intro l
  induction l with
  | nil => intro s k _ _; simp
  | cons q qs ih =>
    intro s k hc hsk
    simp only [consecFrom] at hc
    obtain ⟨hq, hrest⟩ := hc
    by_cases hks : k = s
    · subst hks
      rw [Nat.sub_self, List.drop_zero]
      have hhead : decide (k < q.partNumber) = true := by
        rw [hq]; simp
      have hall : qs.filter (fun p => k < p.partNumber) = qs := by
        rw [List.filter_eq_self]
        intro p hp
        have := consecFrom_gt qs (k + 1) hrest p hp
        simp
        omega
      rw [List.filter_cons, hhead]
      simp [hall]
    · have hsk1 : s + 1 ≤ k := by omega
      have hhead : decide (k < q.partNumber) = false := by
        rw [hq]
        simp
        omega
      rw [List.filter_cons, hhead]
      simp only [Bool.false_eq_true, if_false]
      rw [ih (s + 1) k hrest hsk1]
      rw [show k - s = (k - (s + 1)) + 1 from by omega, List.drop_succ_cons]

theorem consecParts_length (e : Nat → String) :
    ∀ n s, (consecParts e s n).length = n := by
  intro n
  induction n with
  | zero => intro s; rfl
  | succ n ih => intro s; simp [consecParts, ih (s + 1)]

theorem consecParts_consecFrom (e : Nat → String) :
    ∀ n s, consecFrom s (consecParts e s n) := by
  intro n
  induction n with
  | zero => intro s; trivial
  | succ n ih =>
    intro s
    exact ⟨rfl, ih (s + 1)⟩

theorem consecParts_maxPN (e : Nat → String) :
    ∀ n s, 0 < n → maxPartNumber (consecParts e s n) = s + n := by
  intro n
  induction n with
  | zero => intro s h; omega
  | succ n ih =>
    intro s _
    by_cases hn : n = 0
    · subst hn
      show maxPartNumber [⟨s + 1, e s⟩] = s + 1
      simp [maxPartNumber]
    · have hpos : 0 < n := Nat.pos_of_ne_zero hn
      show maxPartNumber (⟨s + 1, e s⟩ :: consecParts e (s + 1) n) = s + (n + 1)
      rw [maxPartNumber_cons, ih (s + 1) hpos]
      simp only []
      omega

theorem gatherParts_consec_full (parts : List S3Part) (hp : consecFrom 0 parts)
    (fuel : Nat) : gatherParts parts (fuel + 1) parts = some parts := by
  rw [gatherParts]
  simp only [listPartsPage]
  rw [consecFrom_filter_eq_drop parts 0 parts.length hp (Nat.zero_le _)]
  simp [List.drop_length]

theorem gatherParts_consec (parts : List S3Part) (hp : consecFrom 0 parts) :
    ∀ fuel k, k ≤ parts.length → parts.length ≤ k + fuel →
      gatherParts parts (fuel + 1) (parts.take k) = some parts := by
  intro fuel
  induction fuel with
  | zero =>
    intro k hk1 hk2
    have hk : k = parts.length := by omega
    rw [hk, List.take_length]
    exact gatherParts_consec_full parts hp 0
  | succ fuel ih =>
    intro k hk1 hk2
    by_cases hk : k = parts.length
    · rw [hk, List.take_length]
      exact gatherParts_consec_full parts hp (fuel + 1)
    · have hklt : k < parts.length := lt_of_le_of_ne hk1 hk
      rw [gatherParts]
      simp only [listPartsPage, List.length_take]
      rw [min_eq_left hk1]
      rw [consecFrom_filter_eq_drop parts 0 k hp (Nat.zero_le _)]
      simp only [Nat.sub_zero]
      have hdne : parts.drop k ≠ [] := by
        rw [Ne, List.drop_eq_nil_iff]
        omega
      have hpne : (parts.drop k).take 100 ≠ [] := by
        rw [Ne, List.take_eq_nil_iff]
        simp [hdne]
      have hie : ((parts.drop k).take 100).isEmpty = false := by
        simp [List.isEmpty_iff, hpne]
      rw [hie]
      simp only [Bool.false_eq_true, if_false]
      rw [← List.take_add]
      have heq : parts.take ((k + 100) ⊓ parts.length) = parts.take (k + 100) := by
        rw [← List.take_take, List.take_length]
      rw [← heq]
      apply ih
      · exact min_le_right _ _
      · omega

/-- C2 counterexample: a session whose single part has number 2 (part
numbers need not be consecutive).  Because the loop uses the accumulated
count as the part-number marker, the part is listed twice, and the
finalize request is submitted with a duplicated part list - which is not
in strictly increasing part-number order. -/
theorem complete_multipart_nonconsecutive_duplicates :
    complete_multipart_upload (fun _ => some "e") [⟨2, "a"⟩]
      = .ok [⟨2, "a"⟩, ⟨2, "a"⟩] ∧
    ¬ List.Pairwise (fun a b : S3Part => a.partNumber < b.partNumber)
        [S3Part.mk 2 "a", S3Part.mk 2 "a"] :=
  ⟨by decide, by decide⟩

/-- C2 as amended: when the session's part numbers are consecutive
`1..n`, `complete_multipart_upload` accumulates each part exactly once,
submits the finalize request with exactly those parts in strictly
increasing part-number order, and fails precisely when the finalize
response carries no ETag. -/
theorem complete_multipart_consecutive (e : Nat → String) (n : Nat)
    (finalize : List S3Part → Option String) :
    complete_multipart_upload finalize (consecParts e 0 n)
      = (match finalize (consecParts e 0 n) with
         | some _ => .ok (consecParts e 0 n)
         | none =>
           .error (.assertionFailed "Failed to complete multipart upload")) ∧
    List.Pairwise (fun a b : S3Part => a.partNumber < b.partNumber)
      (consecParts e 0 n) := by
  have hcf := consecParts_consecFrom e n 0
  constructor
  · have hlenb : (consecParts e 0 n).length
        ≤ maxPartNumber (consecParts e 0 n) + 1 := by
      cases n with
      | zero => simp [consecParts]
      | succ m =>
        rw [consecParts_length, consecParts_maxPN e (m + 1) 0 (Nat.succ_pos m)]
        omega
    have hg := gatherParts_consec (consecParts e 0 n) hcf
      (maxPartNumber (consecParts e 0 n) + 1) 0 (Nat.zero_le _)
      (by omega)
    rw [List.take_zero] at hg
    rw [show maxPartNumber (consecParts e 0 n) + 1 + 1
        = maxPartNumber (consecParts e 0 n) + 2 from by omega] at hg
    unfold complete_multipart_upload
    rw [hg]
    have hsort : (consecParts e 0 n).insertionSort
        (fun a b => a.partNumber ≤ b.partNumber) = consecParts e 0 n :=
      List.Sorted.insertionSort_eq (consecFrom_sorted_le _ _ hcf)
    simp only [hsort]
  · exact consecFrom_pairwise_lt _ _ hcf

end NBS3
